import Mathlib

/-!
Shallow embedding of the admission-control core of the Hire-A-Neighbor
backend: the sliding-window-with-burst-credit Window Evaluator (the Lua
script built in `RateLimiterService.loadScript`), the `CircuitBreaker`
state machine, the `RateLimiterService.checkRateLimit` /
`batchCheckRateLimit` orchestration, and the `RateLimitMonitoring.cleanup`
key deletion.  Times and counters are modelled as `Int` (JavaScript
numbers at integral values); the window sorted set is modelled as the
multiset of its scores (member strings carry a random tiebreaker and only
the scores are ever read); store/monitoring availability is modelled as
boolean outcomes of the corresponding awaited calls.
-/

/-- States of the circuit breaker: 'CLOSED' | 'OPEN' | 'HALF_OPEN'. -/
inductive BreakerState where
  | closed
  | opened
  | halfOpen
deriving DecidableEq, Repr

/-- Embedding of the `CircuitBreaker` class fields: `failures`,
`lastFailureTime`, `state`, and the constructor parameters `threshold`
and `timeout`. -/
structure CircuitBreaker where
  failures : Nat
  lastFailureTime : Int
  state : BreakerState
  threshold : Nat
  timeout : Int
deriving DecidableEq, Repr

/-- Embedding of `new CircuitBreaker(threshold, timeout)`: failures 0,
lastFailureTime 0, state CLOSED. -/
def mkBreaker (threshold : Nat) (timeout : Int) : CircuitBreaker :=
  ⟨0, 0, .closed, threshold, timeout⟩

/-- Embedding of `CircuitBreaker.isOpen`: CLOSED and HALF_OPEN report not
open; OPEN lazily transitions to HALF_OPEN when `now - lastFailureTime >=
timeout`.  Returns the reported openness together with the (possibly
mutated) breaker. -/
def CircuitBreaker.isOpen (cb : CircuitBreaker) (now : Int) : Bool × CircuitBreaker :=
  match cb.state with
  | .closed => (false, cb)
  | .opened =>
      if cb.timeout ≤ now - cb.lastFailureTime then
        (false, { cb with state := .halfOpen })
      else
        (true, cb)
  | .halfOpen => (false, cb)

/-- Embedding of `CircuitBreaker.onSuccess`: only a HALF_OPEN breaker
changes, becoming CLOSED with failures reset to 0. -/
def CircuitBreaker.onSuccess (cb : CircuitBreaker) : CircuitBreaker :=
  if cb.state = .halfOpen then { cb with state := .closed, failures := 0 } else cb

/-- Embedding of `CircuitBreaker.onFailure`: increment failures, stamp
`lastFailureTime = now`, and trip to OPEN once `failures >= threshold`. -/
def CircuitBreaker.onFailure (cb : CircuitBreaker) (now : Int) : CircuitBreaker :=
  let cb1 := { cb with failures := cb.failures + 1, lastFailureTime := now }
  if cb1.threshold ≤ cb1.failures then { cb1 with state := .opened } else cb1

/-- Embedding of `CircuitBreaker.reset`: failures 0, state CLOSED,
lastFailureTime 0. -/
def CircuitBreaker.resetBreaker (cb : CircuitBreaker) : CircuitBreaker :=
  { cb with failures := 0, state := .closed, lastFailureTime := 0 }

/-- Embedding of `CircuitBreaker.execute(action, fallback)`.  The action is
modelled by its outcome (`Except.ok v` when the awaited promise resolves
with `v`, `Except.error e` when it rejects); `now` is the `Date.now()`
reading during this call.  Returns the value handed to the caller, the
breaker after the call, and whether the action was invoked. -/
def CircuitBreaker.execute (cb : CircuitBreaker) (now : Int)
    (action : Except String α) (fallback : α) : α × CircuitBreaker × Bool :=
  let p := cb.isOpen now
  if p.1 then
    (fallback, p.2, false)
  else
    match action with
    | .ok v => (v, p.2.onSuccess, true)
    | .error _ => (fallback, p.2.onFailure now, true)

/-- Breaker after one `execute` whose action either succeeds or fails
(value and fallback irrelevant to the state evolution). -/
def afterCall (cb : CircuitBreaker) (now : Int) (succeeds : Bool) : CircuitBreaker :=
  (cb.execute now (if succeeds then Except.ok 0 else Except.error "store failure") (0 : Nat)).2.1

/-- Breaker after a sequence of `execute` calls whose actions all fail,
made at the given times. -/
def runFails (cb : CircuitBreaker) (ts : List Int) : CircuitBreaker :=
  ts.foldl (fun c time => afterCall c time false) cb

/-- Breaker after a sequence of `execute` calls, each given by its time and
whether its action succeeds. -/
def runSeq (cb : CircuitBreaker) (l : List (Int × Bool)) : CircuitBreaker :=
  l.foldl (fun c p => afterCall c p.1 p.2) cb

/-- Number of failing calls in a call sequence. -/
def countFails (l : List (Int × Bool)) : Nat :=
  l.countP (fun p => !p.2)

/-! Window Evaluator: the Lua script of `RateLimiterService.loadScript`. -/

/-- Result tuple of the Lua script, `{allowed, resetTime, remaining,
effectiveLimit}` (allowed is 1 or 0), together with the window-set scores
and the burst-counter value after the run. -/
structure EvalResult where
  allowedFlag : Int
  resetTime : Int
  remainingRaw : Int
  effectiveLimit : Int
  window : List Int
  burst : Int
deriving DecidableEq, Repr

/-- Embedding of `ZREMRANGEBYSCORE key 0 (now - windowMs)`: drop every
score in the inclusive range `[0, now - windowMs]`. -/
def purge (now windowMs : Int) (window : List Int) : List Int :=
  window.filter (fun s => !(decide (0 ≤ s) && decide (s ≤ now - windowMs)))

/-- Embedding of `ZRANGE key 0 0 WITHSCORES` on the score multiset: the
least score, if any (the sorted set orders members by score). -/
def minScore : List Int → Option Int
  | [] => none
  | s :: rest => some ((minScore rest).elim s (fun m => min s m))

/-- Embedding of the Lua script of `RateLimiterService.loadScript`: purge
expired entries, read count and burst credits, apply and spend a burst
credit if available, then deny (oldest surviving score + windowMs as
resetTime, else now + windowMs) or admit (insert a score-`now` entry,
accrue one burst credit while under the normal budget). -/
def evaluate (now windowMs maxRequests cost burstMultiplier : Int)
    (window : List Int) (burstCredits : Int) : EvalResult :=
  let survivors := purge now windowMs window
  let requestCount : Int := survivors.length
  let effectiveLimit : Int :=
    if 0 < burstCredits then
      min (maxRequests * burstMultiplier) (maxRequests + burstCredits)
    else maxRequests
  let creditsSpent : Int := if 0 < burstCredits then burstCredits - 1 else burstCredits
  if effectiveLimit ≤ requestCount * cost then
    match minScore survivors with
    | none =>
        ⟨0, now + windowMs, requestCount, effectiveLimit, survivors, creditsSpent⟩
    | some oldest =>
        ⟨0, oldest + windowMs, requestCount, effectiveLimit, survivors, creditsSpent⟩
  else
    let creditsFinal : Int :=
      if requestCount * cost < maxRequests then creditsSpent + 1 else creditsSpent
    ⟨1, now + windowMs, max 0 (effectiveLimit - (requestCount + 1) * cost),
      effectiveLimit, now :: survivors, creditsFinal⟩

/-! Rate Limiter Service. -/

/-- Embedding of the `RateLimitInfo` result record. -/
structure RateLimitInfo where
  allowed : Bool
  remaining : Int
  resetTime : Int
  limit : Int
deriving DecidableEq, Repr

/-- Per-bucket store state: the window sorted-set scores and the burst
counter (0 when the key is absent). -/
structure BucketState where
  window : List Int
  burst : Int
deriving DecidableEq, Repr

/-- Conversion of a script result tuple into `RateLimitInfo` as done in
`checkRateLimit`: `allowed === 1`, `Math.max(0, remaining)`. -/
def toRateLimitInfo (r : EvalResult) : RateLimitInfo :=
  ⟨r.allowedFlag == 1, max 0 r.remainingRaw, r.resetTime, r.effectiveLimit⟩

/-- Fail-open default used both as the circuit-breaker fallback and in the
outer catch of `checkRateLimit`. -/
def failOpenInfo (now windowMs maxRequests : Int) : RateLimitInfo :=
  ⟨true, 1, now + windowMs, maxRequests⟩

/-- Embedding of `RateLimiterService.checkRateLimit`, with the circuit
breaker's `execute` inlined.  `storeOk` models the script load and `eval`
against the store succeeding; `monitoringOk` models the awaited
`monitoring.recordRequest` call succeeding.  When the breaker reports open
the fallback is returned; when the store interaction fails the action
rejects before mutating the bucket; when only monitoring fails the script
has already run (the bucket is mutated) but the action rejects, so the
breaker records a failure and the fallback is returned.  Returns the
`RateLimitInfo` handed to the caller, the breaker after the call, and the
bucket after the call. -/
def checkRateLimit (cb : CircuitBreaker) (now windowMs maxRequests cost mult : Int)
    (bucket : BucketState) (storeOk monitoringOk : Bool) :
    RateLimitInfo × CircuitBreaker × BucketState :=
  let p := cb.isOpen now
  if p.1 then
    (failOpenInfo now windowMs maxRequests, p.2, bucket)
  else if storeOk then
    let r := evaluate now windowMs maxRequests cost mult bucket.window bucket.burst
    if monitoringOk then
      (toRateLimitInfo r, p.2.onSuccess, ⟨r.window, r.burst⟩)
    else
      (failOpenInfo now windowMs maxRequests, p.2.onFailure now, ⟨r.window, r.burst⟩)
  else
    (failOpenInfo now windowMs maxRequests, p.2.onFailure now, bucket)

/-- Bucket and breaker after `k` successive `checkRateLimit` calls (store
and monitoring healthy) at the same instant `now` against a fresh bucket,
with the breaker of `new RateLimiterService` (threshold 5, timeout
60000). -/
def serviceState (now windowMs maxRequests cost mult : Int) :
    Nat → CircuitBreaker × BucketState
  | 0 => (mkBreaker 5 60000, ⟨[], 0⟩)
  | k + 1 =>
      let s := serviceState now windowMs maxRequests cost mult k
      let r := checkRateLimit s.1 now windowMs maxRequests cost mult s.2 true true
      (r.2.1, r.2.2)

/-- The `RateLimitInfo` returned by the `(k+1)`-th of the successive
`checkRateLimit` calls of `serviceState`. -/
def nthInfo (now windowMs maxRequests cost mult : Int) (k : Nat) : RateLimitInfo :=
  let s := serviceState now windowMs maxRequests cost mult k
  (checkRateLimit s.1 now windowMs maxRequests cost mult s.2 true true).1

/-- Bucket after `k` successive Window Evaluator runs at the same instant
`now` against a fresh bucket. -/
def iterState (now windowMs maxRequests cost mult : Int) : Nat → BucketState
  | 0 => ⟨[], 0⟩
  | k + 1 =>
      let s := iterState now windowMs maxRequests cost mult k
      let r := evaluate now windowMs maxRequests cost mult s.window s.burst
      ⟨r.window, r.burst⟩

/-- The evaluator result of the `(k+1)`-th of the successive runs of
`iterState`. -/
def nthEval (now windowMs maxRequests cost mult : Int) (k : Nat) : EvalResult :=
  let s := iterState now windowMs maxRequests cost mult k
  evaluate now windowMs maxRequests cost mult s.window s.burst

/-! Batch checking. -/

/-- Embedding of `rateLimitMap.set(identifier, info)` on a JavaScript
`Map` kept as an insertion-ordered association list: an existing key is
updated in place, a new key is appended. -/
def mapSet (m : List (String × RateLimitInfo)) (k : String) (v : RateLimitInfo) :
    List (String × RateLimitInfo) :=
  if m.any (fun p => p.1 == k) then
    m.map (fun p => if p.1 == k then (k, v) else p)
  else
    m ++ [(k, v)]

/-- Per-identifier tuple pushed by the batch circuit-breaker fallback:
`[1, now + windowMs, maxRequests - 1, maxRequests]`. -/
def batchFallbackTuple (now windowMs maxRequests : Int) : Int × Int × Int × Int :=
  (1, now + windowMs, maxRequests - 1, maxRequests)

/-- Embedding of the `results.forEach` body of `batchCheckRateLimit`
building `RateLimitInfo` from a script tuple. -/
def tupleToInfo (t : Int × Int × Int × Int) : RateLimitInfo :=
  ⟨t.1 == 1, max 0 t.2.2.1, t.2.1, t.2.2.2⟩

/-- Embedding of the pipelined per-identifier `eval` calls of
`batchCheckRateLimit`: each identifier has its own key pair, and a
duplicated identifier hits its already-updated bucket.  Returns the result
tuples in order together with the updated per-identifier buckets. -/
def runPipeline (now windowMs maxRequests cost mult : Int) :
    List String → (String → BucketState) →
    List (Int × Int × Int × Int) × (String → BucketState)
  | [], stores => ([], stores)
  | id :: rest, stores =>
      let r := evaluate now windowMs maxRequests cost mult (stores id).window (stores id).burst
      let stores1 := fun k => if k = id then BucketState.mk r.window r.burst else stores k
      let rec0 := runPipeline now windowMs maxRequests cost mult rest stores1
      ((r.allowedFlag, r.resetTime, r.remainingRaw, r.effectiveLimit) :: rec0.1, rec0.2)

/-- Embedding of the Map-building loop of `batchCheckRateLimit` over the
zipped (tuple, identifier) list. -/
def buildMap (acc : List (String × RateLimitInfo)) :
    List ((Int × Int × Int × Int) × String) → List (String × RateLimitInfo)
  | [] => acc
  | (t, id) :: rest => buildMap (mapSet acc id (tupleToInfo t)) rest

/-- Embedding of `RateLimiterService.batchCheckRateLimit`.  `loadScript`
is awaited before the try block, so its failure (`scriptLoadOk = false`)
rejects the returned promise with the `SCRIPT_LOAD` error.  Otherwise one
circuit-breaker invocation wraps the whole pipeline (`pipelineOk` models
`pipeline.exec` resolving): on breaker-open or pipeline failure every
identifier gets the fallback tuple.  The tuples are then zipped with the
identifiers into a Map. -/
def batchCheckRateLimit (cb : CircuitBreaker) (ids : List String)
    (now windowMs maxRequests cost mult : Int) (stores : String → BucketState)
    (scriptLoadOk pipelineOk : Bool) :
    Except String (List (String × RateLimitInfo) × CircuitBreaker) :=
  if scriptLoadOk = false then
    .error "Failed to load Lua script"
  else
    let p := cb.isOpen now
    let tuples : List (Int × Int × Int × Int) :=
      if p.1 then
        ids.map (fun _ => batchFallbackTuple now windowMs maxRequests)
      else if pipelineOk then
        (runPipeline now windowMs maxRequests cost mult ids stores).1
      else
        ids.map (fun _ => batchFallbackTuple now windowMs maxRequests)
    let cb2 :=
      if p.1 then p.2
      else if pipelineOk then p.2.onSuccess
      else p.2.onFailure now
    .ok (buildMap [] (tuples.zip ids), cb2)

/-! Monitoring: per-minute bucket keys and cleanup. -/

/-- Key of the per-minute counter hash written by
`RateLimitMonitoring.recordRequest` via `hincrby`. -/
def metricsKey (t : String) (minute : Nat) : String :=
  "ratelimit:metrics:" ++ t ++ ":" ++ toString minute

/-- Key of the per-minute distinct-identifier set written by
`RateLimitMonitoring.recordRequest` via `sadd`. -/
def uniquesKey (t : String) (minute : Nat) : String :=
  "ratelimit:metrics:" ++ t ++ ":" ++ toString minute ++ ":uniques"

/-- Keys handed to `del` by `RateLimitMonitoring.cleanup(retentionMinutes)`:
for `i` from `retentionMinutes` to `retentionMinutes + 9`, the literal
strings `ratelimit:metrics:*:{minute}` and
`ratelimit:metrics:*:{minute}:uniques` with `minute = nowMinute - i`. -/
def cleanupDelKeys (nowMinute retentionMinutes : Nat) : List String :=
  ((List.range 10).map (fun j =>
    let minute := nowMinute - (retentionMinutes + j)
    ["ratelimit:metrics:*:" ++ toString minute,
     "ratelimit:metrics:*:" ++ toString minute ++ ":uniques"])).flatten

/-- Embedding of `RateLimitMonitoring.cleanup` acting on the set of
existing store keys: `DEL` removes exactly the keys equal to one of the
issued (literal) key strings. -/
def cleanup (store : List String) (nowMinute retentionMinutes : Nat) : List String :=
  store.filter (fun k => !(cleanupDelKeys nowMinute retentionMinutes).contains k)

/-! Helper lemmas about the Window Evaluator. -/

/-- When burst credits are present the evaluator's effective limit is
`min(maxRequests * burstMultiplier, maxRequests + burstCredits)`. -/
theorem evaluate_effectiveLimit_of_pos (now W maxR cost mult credits : Int)
    (window : List Int) (hc : 0 < credits) :
    (evaluate now W maxR cost mult window credits).effectiveLimit =
      min (maxR * mult) (maxR + credits) := by
  unfold evaluate
  dsimp only
  simp only [hc, ite_true]
  split
  all_goals (try (cases hm : minScore (purge now W window)))
  all_goals rfl

/-- The burst counter after an evaluator run: one credit is spent exactly
when credits were present, and one credit is added exactly when the
request is admitted while `count * cost < maxRequests`. -/
theorem evaluate_burst_eq (now W maxR cost mult credits : Int) (window : List Int) :
    (evaluate now W maxR cost mult window credits).burst =
      (if 0 < credits then credits - 1 else credits) +
        (if (evaluate now W maxR cost mult window credits).allowedFlag = 1 ∧
            ((purge now W window).length : Int) * cost < maxR then 1 else 0) := by
  unfold evaluate
  dsimp only
  by_cases hc : 0 < credits <;> simp only [hc, ite_true, ite_false]
  all_goals split
  all_goals (try (cases hm : minScore (purge now W window)))
  all_goals (try dsimp only)
  all_goals
    (try (by_cases hd : ((purge now W window).length : Int) * cost < maxR <;> simp [hd]))

/-- The effective limit never exceeds `maxRequests * burstMultiplier` (for
a nonnegative limit and a multiplier of at least 1). -/
theorem evaluate_effectiveLimit_le (now W maxR cost mult credits : Int)
    (window : List Int) (hmaxR : 0 ≤ maxR) (hmult : 1 ≤ mult) :
    (evaluate now W maxR cost mult window credits).effectiveLimit ≤ maxR * mult := by
  have hbase : maxR ≤ maxR * mult := le_mul_of_one_le_right hmaxR hmult
  unfold evaluate
  dsimp only
  by_cases hc : 0 < credits <;> simp only [hc, ite_true, ite_false]
  all_goals split
  all_goals (try (cases hm : minScore (purge now W window)))
  all_goals (try dsimp only)
  all_goals simp [min_le_left, hbase]

/-! Helper lemmas about the circuit breaker. -/

/-- A successful call on a CLOSED breaker changes nothing. -/
theorem afterCall_closed_success (cb : CircuitBreaker) (now : Int)
    (h : cb.state = .closed) : afterCall cb now true = cb := by
  obtain ⟨f, l, s, t, T⟩ := cb
  simp only at h
  subst h
  rfl

/-- A failing call on a CLOSED breaker increments failures, stamps the
failure time, and trips to OPEN exactly when the threshold is reached. -/
theorem afterCall_closed_failure (cb : CircuitBreaker) (now : Int)
    (h : cb.state = .closed) :
    afterCall cb now false =
      if cb.threshold ≤ cb.failures + 1 then
        ⟨cb.failures + 1, now, .opened, cb.threshold, cb.timeout⟩
      else
        ⟨cb.failures + 1, now, .closed, cb.threshold, cb.timeout⟩ := by
  obtain ⟨f, l, s, t, T⟩ := cb
  simp only at h
  subst h
  simp only [afterCall, CircuitBreaker.execute, CircuitBreaker.isOpen,
    CircuitBreaker.onFailure, Bool.false_eq_true, ite_false]

/-- A CLOSED breaker whose failures complete the threshold over a nonempty
run of failing calls ends OPEN. -/
theorem runFails_trips (ts : List Int) : ∀ cb : CircuitBreaker, cb.state = .closed →
    cb.failures + ts.length = cb.threshold → ts ≠ [] →
    (runFails cb ts).state = .opened := by
  induction ts with
  | nil => intro cb _ _ hne; exact absurd rfl hne
  | cons t0 rest ih =>
    intro cb hs hcount _
    show (runFails (afterCall cb t0 false) rest).state = .opened
    rw [afterCall_closed_failure cb t0 hs]
    cases rest with
    | nil =>
      have hge : cb.threshold ≤ cb.failures + 1 := by
        simp only [List.length_cons, List.length_nil] at hcount; omega
      rw [if_pos hge]
      rfl
    | cons r1 rs =>
      have hlt : ¬ cb.threshold ≤ cb.failures + 1 := by
        simp only [List.length_cons] at hcount; omega
      rw [if_neg hlt]
      refine ih _ rfl ?_ (by simp)
      simp only [List.length_cons] at hcount ⊢
      omega

/-- While the accumulated failures stay below the threshold, a CLOSED
breaker stays CLOSED across any interleaving of successes and failures,
its failure counter equal to the number of failing calls seen. -/
theorem runSeq_closed_invariant (l : List (Int × Bool)) : ∀ cb : CircuitBreaker,
    cb.state = .closed → cb.failures + countFails l < cb.threshold →
    (runSeq cb l).state = .closed ∧
    (runSeq cb l).failures = cb.failures + countFails l ∧
    (runSeq cb l).threshold = cb.threshold := by
  induction l with
  | nil =>
    intro cb hs _
    exact ⟨hs, by simp [runSeq, countFails], rfl⟩
  | cons p rest ih =>
    intro cb hs hcount
    obtain ⟨now0, b⟩ := p
    cases b with
    | true =>
      have hcf : countFails ((now0, true) :: rest) = countFails rest := by
        simp [countFails]
      rw [show runSeq cb ((now0, true) :: rest) = runSeq (afterCall cb now0 true) rest from rfl,
        afterCall_closed_success cb now0 hs, hcf]
      rw [hcf] at hcount
      exact ih cb hs hcount
    | false =>
      have hcf : countFails ((now0, false) :: rest) = countFails rest + 1 := by
        simp [countFails]
      rw [hcf] at hcount
      have hlt : ¬ cb.threshold ≤ cb.failures + 1 := by omega
      have hstep := afterCall_closed_failure cb now0 hs
      rw [if_neg hlt] at hstep
      rw [show runSeq cb ((now0, false) :: rest) = runSeq (afterCall cb now0 false) rest from rfl,
        hstep, hcf]
      have hinv := ih ⟨cb.failures + 1, now0, .closed, cb.threshold, cb.timeout⟩ rfl
        (by simp only; omega)
      refine ⟨hinv.1, ?_, hinv.2.2⟩
      rw [hinv.2.1]
      simp only
      omega

/-! Helper lemmas for iterated evaluator runs on a fresh bucket. -/

/-- Purging at time 0 with a positive window removes nothing from a window
of score-0 entries. -/
theorem purge_replicate_zero (W : Int) (hW : 1 ≤ W) (k : Nat) :
    purge 0 W (List.replicate k 0) = List.replicate k 0 := by
  unfold purge
  induction k with
  | zero => rfl
  | succ m ihm =>
    rw [List.replicate_succ, List.filter_cons]
    have hp : (!(decide ((0:Int) ≤ 0) && decide ((0:Int) ≤ 0 - W))) = true := by
      simp only [Bool.not_eq_true', Bool.and_eq_false_iff, decide_eq_false_iff_not]
      right
      omega
    rw [if_pos hp, ihm]

/-- The least score of a nonempty all-zero window is 0. -/
theorem minScore_replicate_zero (k : Nat) :
    minScore (List.replicate (k + 1) (0 : Int)) = some 0 := by
  induction k with
  | zero => rfl
  | succ m ihm =>
    rw [List.replicate_succ]
    unfold minScore
    rw [ihm]
    simp

/-- With `cost = 1` and `burstMultiplier = 1`, the evaluator admits the
`(k+1)`-th same-instant request on a fresh bucket while `k < maxRequests`
(the burst counter is 0 before the first run and 1 afterwards). -/
theorem eval_replicate_allow (W : Int) (hW : 1 ≤ W) (n k : Nat) (hk : k < n)
    (c : Int) (hc : c = if k = 0 then 0 else 1) :
    evaluate 0 W (n : Int) 1 1 (List.replicate k 0) c =
      ⟨1, W, max 0 ((n : Int) - ((k : Int) + 1)), (n : Int),
        0 :: List.replicate k 0, 1⟩ := by
  unfold evaluate
  rw [purge_replicate_zero W hW k]
  dsimp only
  rcases Nat.eq_zero_or_pos k with hk0 | hkpos
  · subst hk0
    norm_num at hc
    subst hc
    have h1 : ¬ (0 : Int) < 0 := by omega
    simp only [h1, ite_false, List.length_replicate, Nat.cast_zero, zero_mul, mul_one,
      zero_add]
    rw [if_neg (by omega), if_pos (by omega)]
  · have hkne : k ≠ 0 := by omega
    rw [if_neg hkne] at hc
    subst hc
    have h1 : (0 : Int) < 1 := by omega
    have hmin : min ((n : Int) * 1) ((n : Int) + 1) = (n : Int) := by
      rw [mul_one]
      exact min_eq_left (by omega)
    simp only [h1, ite_true, List.length_replicate, mul_one, hmin]
    rw [if_neg (by omega), if_pos (by omega)]
    norm_num

/-- With `cost = 1` and `burstMultiplier = 1`, the evaluator denies the
`(maxRequests+1)`-th same-instant request on a bucket already holding
`maxRequests` entries and one burst credit, with resetTime the first
admission time plus the window. -/
theorem eval_replicate_deny (W : Int) (hW : 1 ≤ W) (n : Nat) (hn : 1 ≤ n) :
    evaluate 0 W (n : Int) 1 1 (List.replicate n 0) 1 =
      ⟨0, W, (n : Int), (n : Int), List.replicate n 0, 0⟩ := by
  unfold evaluate
  rw [purge_replicate_zero W hW n]
  dsimp only
  have h1 : (0 : Int) < 1 := by omega
  have hmin : min ((n : Int) * 1) ((n : Int) + 1) = (n : Int) := by
    rw [mul_one]
    exact min_eq_left (by omega)
  simp only [h1, ite_true, List.length_replicate, mul_one, hmin]
  rw [if_pos (by omega)]
  obtain ⟨m, rfl⟩ : ∃ m, n = m + 1 := ⟨n - 1, by omega⟩
  rw [minScore_replicate_zero m]
  norm_num

/-- Shape of the bucket after `k ≤ maxRequests` same-instant runs on a
fresh bucket with `cost = 1` and `burstMultiplier = 1`. -/
theorem iterState_replicate (W : Int) (hW : 1 ≤ W) (n : Nat) :
    ∀ k, k ≤ n → iterState 0 W (n : Int) 1 1 k =
      ⟨List.replicate k 0, if k = 0 then 0 else 1⟩ := by
  intro k
  induction k with
  | zero => intro _; rfl
  | succ m ihm =>
    intro hle
    rw [iterState, ihm (by omega)]
    dsimp only
    rw [eval_replicate_allow W hW n m (by omega) _ rfl]
    simp [List.replicate_succ]

/-! Helper lemmas for the batch Map construction. -/

/-- Zipping a constant-tuple result list with its identifiers pairs the
tuple with each identifier. -/
theorem zip_map_const (t : Int × Int × Int × Int) : ∀ ids : List String,
    (ids.map (fun _ => t)).zip ids = ids.map (fun id => (t, id)) := by
  intro ids
  induction ids with
  | nil => rfl
  | cons a l ih => simp only [List.map_cons, List.zip_cons_cons, ih]

/-- Building the Map from identical tuples over distinct identifiers
appends one entry per identifier, in order. -/
theorem buildMap_const (t : Int × Int × Int × Int) : ∀ (ids : List String)
    (acc : List (String × RateLimitInfo)), ids.Nodup →
    (∀ id ∈ ids, acc.any (fun p => p.1 == id) = false) →
    buildMap acc (ids.map (fun id => (t, id))) =
      acc ++ ids.map (fun id => (id, tupleToInfo t)) := by
  intro ids
  induction ids with
  | nil => intro acc _ _; simp [buildMap]
  | cons a l ih =>
    intro acc hnd hacc
    have ha : acc.any (fun p => p.1 == a) = false := hacc a (by simp)
    have hset : mapSet acc a (tupleToInfo t) = acc ++ [(a, tupleToInfo t)] := by
      unfold mapSet
      rw [if_neg (by simp [ha])]
    simp only [List.map_cons]
    show buildMap (mapSet acc a (tupleToInfo t)) (l.map fun id => (t, id)) = _
    rw [hset, ih (acc ++ [(a, tupleToInfo t)]) (List.nodup_cons.mp hnd).2 ?_]
    · simp
    · intro id hid
      have h1 : acc.any (fun p => p.1 == id) = false := hacc id (by simp [hid])
      have h2 : (a == id) = false := by
        have hne : a ≠ id := fun h => (List.nodup_cons.mp hnd).1 (h ▸ hid)
        simpa using hne
      simp [List.any_append, h1, h2]

/-! Claim theorems. -/

/-- C1 (code bug): the deny branch of the evaluator returns `requestCount`
in the remaining slot instead of 0.  On a fresh bucket with
`maxRequests = 1`, `windowMs = 1000`, `cost = 1`, `burstMultiplier = 2`,
the third same-instant `checkRateLimit` call (reachable because the first
two accrue and spend a burst credit) is denied yet reports
`remaining = 2 > 1 = limit` and `remaining ≠ 0`, violating both halves of
the claimed invariant; the raw third tuple slot equals the surviving
request count. -/
theorem c1_deny_returns_requestCount :
    (nthInfo 0 1000 1 1 2 2).allowed = false ∧
    (nthInfo 0 1000 1 1 2 2).limit < (nthInfo 0 1000 1 1 2 2).remaining ∧
    (nthInfo 0 1000 1 1 2 2).remaining ≠ 0 ∧
    (nthEval 0 1000 1 1 2 2).remainingRaw =
      (((iterState 0 1000 1 1 2 2).window).length : Int) := by
  decide

/-- C2 (counterexample): with the claim's own example — fresh bucket,
`maxRequests = 3`, `windowMs = 1000`, `cost = 1` and the default
`burstMultiplier = 2` — all of the first four same-instant
`checkRateLimit` calls are allowed: the `(maxRequests+1)`-th call is NOT
denied, because the first three admissions each accrue a burst credit
inside the window. -/
theorem c2_counterexample :
    (nthInfo 0 1000 3 1 2 0).allowed = true ∧
    (nthInfo 0 1000 3 1 2 1).allowed = true ∧
    (nthInfo 0 1000 3 1 2 2).allowed = true ∧
    (nthInfo 0 1000 3 1 2 3).allowed = true := by
  decide

/-- C2 (amended): for a fresh bucket with `cost = 1` and a burst
multiplier of 1 (so burst credits confer no extra capacity), the first
`maxRequests` same-instant evaluator runs are admitted and the
`(maxRequests+1)`-th is denied with `resetTime` equal to the first
admission time (0) plus `windowMs`. -/
theorem c2_amended (n : Nat) (hn : 1 ≤ n) (W : Int) (hW : 1 ≤ W) :
    (∀ k : Nat, k < n → (nthEval 0 W (n : Int) 1 1 k).allowedFlag = 1) ∧
    (nthEval 0 W (n : Int) 1 1 n).allowedFlag = 0 ∧
    (nthEval 0 W (n : Int) 1 1 n).resetTime = W := by
  refine ⟨?_, ?_, ?_⟩
  · intro k hk
    unfold nthEval
    rw [iterState_replicate W hW n k (by omega)]
    dsimp only
    rw [eval_replicate_allow W hW n k hk _ rfl]
  · unfold nthEval
    rw [iterState_replicate W hW n n le_rfl]
    dsimp only
    rw [if_neg (by omega)]
    rw [eval_replicate_deny W hW n hn]
  · unfold nthEval
    rw [iterState_replicate W hW n n le_rfl]
    dsimp only
    rw [if_neg (by omega)]
    rw [eval_replicate_deny W hW n hn]

/-- C2 (witness): the amended claim evaluated at `maxRequests = 3`,
`windowMs = 1000`: the third call is admitted, the fourth is denied with
resetTime 1000. -/
theorem c2_amended_witness :
    (nthEval 0 1000 (3 : Int) 1 1 2).allowedFlag = 1 ∧
    (nthEval 0 1000 (3 : Int) 1 1 3).allowedFlag = 0 ∧
    (nthEval 0 1000 (3 : Int) 1 1 3).resetTime = 1000 :=
  ⟨(c2_amended 3 (by decide) 1000 (by decide)).1 2 (by decide),
    (c2_amended 3 (by decide) 1000 (by decide)).2.1,
    (c2_amended 3 (by decide) 1000 (by decide)).2.2⟩

/-- C3 (code bug): `checkRateLimit` awaits `monitoring.recordRequest`
inside the circuit-breaker action, so a monitoring error changes the
admission decision.  On a bucket whose evaluator run denies
(`maxRequests = 1`, one surviving entry), the call with healthy monitoring
returns the evaluator's denial, but the same call with failing monitoring
returns the fail-open fallback (`allowed = true`) and the breaker records
one failure. -/
theorem c3_monitoring_failure_changes_decision :
    (evaluate 0 1000 1 1 2 [0] 0).allowedFlag = 0 ∧
    (checkRateLimit (mkBreaker 5 60000) 0 1000 1 1 2 ⟨[0], 0⟩ true true).1.allowed = false ∧
    (checkRateLimit (mkBreaker 5 60000) 0 1000 1 1 2 ⟨[0], 0⟩ true false).1.allowed = true ∧
    (checkRateLimit (mkBreaker 5 60000) 0 1000 1 1 2 ⟨[0], 0⟩ true false).2.1.failures = 1 := by
  decide

/-- C4 (counterexample): with `maxRequests = 3` and a failing pipeline
(script already loaded, fresh breaker), the single identifier gets an
entry with `remaining = 2 = maxRequests - 1`, not the claimed fail-open
default `failOpenInfo` whose remaining is 1. -/
theorem c4_counterexample :
    batchCheckRateLimit (mkBreaker 5 60000) ["a"] 0 1000 3 1 2
        (fun _ => ⟨[], 0⟩) true false =
      .ok ([("a", ⟨true, 2, 1000, 3⟩)], ⟨1, 0, .closed, 5, 60000⟩) ∧
    (⟨true, 2, 1000, 3⟩ : RateLimitInfo) ≠ failOpenInfo 0 1000 3 := by
  exact ⟨rfl, by decide⟩

/-- C4 (amended): when loading the evaluator script fails,
`batchCheckRateLimit` rejects with the SCRIPT_LOAD error; when the script
loads but the pipelined execution fails (or the breaker is open), the call
resolves to a Map with exactly one entry per (distinct) input identifier,
in input order, each entry being
`{allowed: true, remaining: max(0, maxRequests - 1), resetTime: now + windowMs, limit: maxRequests}`. -/
theorem c4_amended (cb : CircuitBreaker) (ids : List String)
    (now W maxR cost mult : Int) (stores : String → BucketState)
    (hnd : ids.Nodup) :
    batchCheckRateLimit cb ids now W maxR cost mult stores false true =
      .error "Failed to load Lua script" ∧
    (∃ cb2, batchCheckRateLimit cb ids now W maxR cost mult stores true false =
      .ok (ids.map (fun id => (id, ⟨true, max 0 (maxR - 1), now + W, maxR⟩)), cb2)) := by
  constructor
  · rfl
  · refine ⟨if (cb.isOpen now).1 then (cb.isOpen now).2
      else (cb.isOpen now).2.onFailure now, ?_⟩
    unfold batchCheckRateLimit
    rw [if_neg (by simp)]
    dsimp only
    by_cases hp : (cb.isOpen now).1
    · simp only [hp, ite_true]
      rw [zip_map_const, buildMap_const _ ids [] hnd (fun id _ => rfl)]
      simp [tupleToInfo, batchFallbackTuple]
    · simp only [hp, ite_false, Bool.false_eq_true]
      rw [zip_map_const, buildMap_const _ ids [] hnd (fun id _ => rfl)]
      simp [tupleToInfo, batchFallbackTuple]

/-- C4 (witness): the amended claim at two identifiers, `maxRequests = 3`,
fresh breaker and fresh buckets. -/
theorem c4_amended_witness :
    batchCheckRateLimit (mkBreaker 5 60000) ["a", "b"] 0 1000 3 1 2
        (fun _ => ⟨[], 0⟩) false true = .error "Failed to load Lua script" ∧
    (∃ cb2, batchCheckRateLimit (mkBreaker 5 60000) ["a", "b"] 0 1000 3 1 2
        (fun _ => ⟨[], 0⟩) true false =
      .ok ([("a", ⟨true, max 0 (3 - 1), 0 + 1000, 3⟩),
            ("b", ⟨true, max 0 (3 - 1), 0 + 1000, 3⟩)], cb2)) := by
  have h := c4_amended (mkBreaker 5 60000) ["a", "b"] 0 1000 3 1 2
    (fun _ => ⟨[], 0⟩) (by decide)
  exact ⟨h.1, h.2⟩

/-- C5: circuit-breaker lifecycle.  (a) From a fresh CLOSED breaker,
`threshold` consecutive failing `execute` calls leave the state OPEN;
(b) an `execute` call on an OPEN breaker before `cooldownMs` has elapsed
since `lastFailureTime` returns the fallback without invoking the action
and leaves the breaker unchanged; (c) at or after the cooldown the action
is invoked (trial): on success the breaker is CLOSED with failures 0, and
on failure (the trip having required `threshold ≤ failures + 1`) it is
OPEN again. -/
theorem c5_breaker_lifecycle (t : Nat) (T : Int) (ht : 0 < t) :
    (∀ ts : List Int, ts.length = t → (runFails (mkBreaker t T) ts).state = .opened) ∧
    (∀ (cb : CircuitBreaker) (now : Int) (action : Except String Nat) (fb : Nat),
        cb.state = .opened → now - cb.lastFailureTime < cb.timeout →
        cb.execute now action fb = (fb, cb, false)) ∧
    (∀ (cb : CircuitBreaker) (now : Int) (fb v : Nat) (e : String),
        cb.state = .opened → cb.timeout ≤ now - cb.lastFailureTime →
        cb.execute now (Except.ok v) fb =
          (v, ⟨0, cb.lastFailureTime, .closed, cb.threshold, cb.timeout⟩, true) ∧
        (cb.execute now (Except.error e) fb).2.2 = true ∧
        (cb.threshold ≤ cb.failures + 1 →
          (cb.execute now (Except.error e) fb).2.1.state = .opened)) := by
  refine ⟨?_, ?_, ?_⟩
  · intro ts hlen
    refine runFails_trips ts (mkBreaker t T) rfl (by simp [mkBreaker, hlen]) ?_
    intro hnil
    rw [hnil] at hlen
    simp at hlen
    omega
  · intro cb now action fb hs hlt
    obtain ⟨f, l, s, thr, T0⟩ := cb
    simp only at hs hlt
    subst hs
    have hno : ¬ T0 ≤ now - l := by omega
    simp [CircuitBreaker.execute, CircuitBreaker.isOpen, hno]
  · intro cb now fb v e hs hge
    obtain ⟨f, l, s, thr, T0⟩ := cb
    simp only at hs hge
    subst hs
    refine ⟨?_, ?_, ?_⟩
    · simp [CircuitBreaker.execute, CircuitBreaker.isOpen, CircuitBreaker.onSuccess, hge]
    · simp [CircuitBreaker.execute, CircuitBreaker.isOpen, CircuitBreaker.onFailure, hge]
    · intro hthr
      simp only at hthr
      simp [CircuitBreaker.execute, CircuitBreaker.isOpen, CircuitBreaker.onFailure,
        hge, hthr]

/-- C5 (witness): threshold 1, timeout 10.  One failing call at time 5
opens the breaker; at time 105 on a breaker that failed at 100 the
cooldown has not elapsed and the fallback 7 is returned with the breaker
untouched; at time 110 the trial succeeds to CLOSED with failures 0, and a
failing trial returns to OPEN. -/
theorem c5_breaker_lifecycle_witness :
    (runFails (mkBreaker 1 10) [5]).state = .opened ∧
    CircuitBreaker.execute ⟨1, 100, .opened, 1, 10⟩ 105 (Except.ok 3) 7 =
      (7, ⟨1, 100, .opened, 1, 10⟩, false) ∧
    CircuitBreaker.execute ⟨1, 100, .opened, 1, 10⟩ 110 (Except.ok 3) 7 =
      (3, ⟨0, 100, .closed, 1, 10⟩, true) ∧
    (CircuitBreaker.execute ⟨1, 100, .opened, 1, 10⟩ 110
        (Except.error "boom") (7 : Nat)).2.1.state = .opened :=
  ⟨(c5_breaker_lifecycle 1 10 (by decide)).1 [5] rfl,
    (c5_breaker_lifecycle 1 10 (by decide)).2.1 ⟨1, 100, .opened, 1, 10⟩ 105
      (Except.ok 3) 7 rfl (by decide),
    ((c5_breaker_lifecycle 1 10 (by decide)).2.2 ⟨1, 100, .opened, 1, 10⟩ 110 7 3
      "boom" rfl (by decide)).1,
    ((c5_breaker_lifecycle 1 10 (by decide)).2.2 ⟨1, 100, .opened, 1, 10⟩ 110 7 3
      "boom" rfl (by decide)).2.2 (by decide)⟩

/-- C6: burst accounting of the Window Evaluator.  With a nonnegative
`maxRequests` and a burst multiplier of at least 1: when the burst counter
is positive the effective limit is
`min(maxRequests * burstMultiplier, maxRequests + burstCredits)`; the
counter afterwards equals the entry value minus the one consumed credit
(consumed exactly when credits were present) plus the one accrued credit
(accrued exactly when the request was admitted with
`count * cost < maxRequests`); and the effective limit never exceeds
`maxRequests * burstMultiplier`. -/
theorem c6_burst_accounting (now W maxR cost mult credits : Int)
    (window : List Int) (hmaxR : 0 ≤ maxR) (hmult : 1 ≤ mult) :
    (0 < credits →
      (evaluate now W maxR cost mult window credits).effectiveLimit =
        min (maxR * mult) (maxR + credits)) ∧
    (evaluate now W maxR cost mult window credits).burst =
      (if 0 < credits then credits - 1 else credits) +
        (if (evaluate now W maxR cost mult window credits).allowedFlag = 1 ∧
            ((purge now W window).length : Int) * cost < maxR then 1 else 0) ∧
    (evaluate now W maxR cost mult window credits).effectiveLimit ≤ maxR * mult :=
  ⟨fun hc => evaluate_effectiveLimit_of_pos now W maxR cost mult credits window hc,
    evaluate_burst_eq now W maxR cost mult credits window,
    evaluate_effectiveLimit_le now W maxR cost mult credits window hmaxR hmult⟩

/-- C6 (witness): the burst accounting evaluated at `maxRequests = 3`,
`burstMultiplier = 2`, one burst credit, empty window: the effective limit
is `min(6, 4) = 4`, the spent credit is re-accrued on admission, and the
effective limit stays below 6. -/
theorem c6_burst_accounting_witness :
    (0 < (1 : Int) →
      (evaluate 0 1000 3 1 2 [] 1).effectiveLimit = min (3 * 2) (3 + 1)) ∧
    (evaluate 0 1000 3 1 2 [] 1).burst =
      (if 0 < (1 : Int) then 1 - 1 else 1) +
        (if (evaluate 0 1000 3 1 2 [] 1).allowedFlag = 1 ∧
            ((purge 0 1000 ([] : List Int)).length : Int) * 1 < 3 then 1 else 0) ∧
    (evaluate 0 1000 3 1 2 [] 1).effectiveLimit ≤ 3 * 2 :=
  c6_burst_accounting 0 1000 3 1 2 1 [] (by decide) (by decide)

/-- C7: `checkRateLimit` fails open.  Whenever the breaker reports open,
or the store interaction fails, or the monitoring call fails, the
(always-resolving) call returns exactly the fail-open default
`{allowed: true, remaining: 1, resetTime: now + windowMs, limit: maxRequests}`. -/
theorem c7_fail_open (cb : CircuitBreaker) (now W maxR cost mult : Int)
    (bucket : BucketState) (storeOk monitoringOk : Bool)
    (h : (cb.isOpen now).1 = true ∨ storeOk = false ∨ monitoringOk = false) :
    (checkRateLimit cb now W maxR cost mult bucket storeOk monitoringOk).1 =
      failOpenInfo now W maxR := by
  unfold checkRateLimit
  rcases h with h | h | h
  · simp [h]
  · subst h
    by_cases hp : (cb.isOpen now).1 <;> simp [hp]
  · subst h
    by_cases hp : (cb.isOpen now).1 <;> simp [hp]
    by_cases hs : storeOk <;> simp [hs]

/-- C7 (witness): a failing store interaction on a fresh breaker yields
the fail-open default. -/
theorem c7_fail_open_witness :
    (checkRateLimit (mkBreaker 5 60000) 0 1000 3 1 2 ⟨[], 0⟩ false true).1 =
      failOpenInfo 0 1000 3 :=
  c7_fail_open (mkBreaker 5 60000) 0 1000 3 1 2 ⟨[], 0⟩ false true
    (Or.inr (Or.inl rfl))

/-- C8 (code bug): `cleanup` deletes nothing it recorded.  The per-minute
bucket keys of type `ip` at minute 40 (written by `recordRequest`) are
exactly `retentionMinutes = 60` minutes old at now-minute 100 — inside the
band the cleanup loop targets — yet `cleanup` leaves them in the store,
because the issued delete keys are the literal wildcard strings
`ratelimit:metrics:*:40` and `ratelimit:metrics:*:40:uniques`, which match
no recorded key. -/
theorem c8_cleanup_pattern_noop :
    cleanup [metricsKey "ip" 40, uniquesKey "ip" 40] 100 60 =
      [metricsKey "ip" 40, uniquesKey "ip" 40] ∧
    (cleanupDelKeys 100 60).contains (metricsKey "ip" 40) = false ∧
    (cleanupDelKeys 100 60).contains ("ratelimit:metrics:*:40") = true := by
  decide

/-- C9: the burst counter never goes negative — an evaluator run started
with a nonnegative burst counter (0 when the key is absent) leaves it
nonnegative, the decrement being guarded by a strict positivity check. -/
theorem c9_burst_nonneg (now W maxR cost mult credits : Int) (window : List Int)
    (h : 0 ≤ credits) :
    0 ≤ (evaluate now W maxR cost mult window credits).burst := by
  unfold evaluate
  dsimp only
  by_cases hc : 0 < credits <;> simp only [hc, ite_true, ite_false]
  all_goals split
  all_goals (try (cases hm : minScore (purge now W window)))
  all_goals (try split)
  all_goals (try dsimp only)
  all_goals omega

/-- C9 (witness): a run with one credit on an empty window leaves the
counter nonnegative. -/
theorem c9_burst_nonneg_witness :
    (0 : Int) ≤ 1 ∧ 0 ≤ (evaluate 0 1000 3 1 2 [] 1).burst :=
  ⟨by decide, c9_burst_nonneg 0 1000 3 1 2 1 [] (by decide)⟩

/-- C10: failures accumulate in CLOSED.  A successful call on a CLOSED
breaker changes nothing (in particular the failure counter), so from a
fresh breaker any call sequence with fewer than `threshold` failures —
however many successes are interleaved — stays CLOSED with the counter
equal to the number of failures, and the call delivering the
`threshold`-th failure trips the breaker to OPEN. -/
theorem c10_failures_accumulate :
    (∀ (cb : CircuitBreaker) (now : Int), cb.state = .closed →
        afterCall cb now true = cb) ∧
    (∀ (t : Nat) (T : Int) (l : List (Int × Bool)), countFails l < t →
        (runSeq (mkBreaker t T) l).state = .closed ∧
        (runSeq (mkBreaker t T) l).failures = countFails l) ∧
    (∀ (t : Nat) (T : Int) (l : List (Int × Bool)) (now : Int), countFails l + 1 = t →
        (afterCall (runSeq (mkBreaker t T) l) now false).state = .opened) := by
  refine ⟨fun cb now h => afterCall_closed_success cb now h, ?_, ?_⟩
  · intro t T l hlt
    have hinv := runSeq_closed_invariant l (mkBreaker t T) rfl
      (by simpa [mkBreaker] using hlt)
    exact ⟨hinv.1, by simpa [mkBreaker] using hinv.2.1⟩
  · intro t T l now hcf
    have hinv := runSeq_closed_invariant l (mkBreaker t T) rfl
      (by simp [mkBreaker]; omega)
    rw [afterCall_closed_failure _ now hinv.1,
      if_pos (by rw [hinv.2.1, hinv.2.2]; simp [mkBreaker]; omega)]

/-- C10 (witness): a success in CLOSED keeps two accumulated failures; a
success-interleaved sequence with one failure against threshold 3 stays
CLOSED at counter 1; one more failure against threshold 2 trips to
OPEN. -/
theorem c10_failures_accumulate_witness :
    afterCall ⟨2, 5, .closed, 3, 10⟩ 7 true = ⟨2, 5, .closed, 3, 10⟩ ∧
    ((runSeq (mkBreaker 3 10) [(0, true), (1, false), (2, true)]).state = .closed ∧
      (runSeq (mkBreaker 3 10) [(0, true), (1, false), (2, true)]).failures =
        countFails [(0, true), (1, false), (2, true)]) ∧
    (afterCall (runSeq (mkBreaker 2 10) [(0, false), (1, true)]) 9 false).state =
      .opened :=
  ⟨c10_failures_accumulate.1 ⟨2, 5, .closed, 3, 10⟩ 7 rfl,
    c10_failures_accumulate.2.1 3 10 [(0, true), (1, false), (2, true)] (by decide),
    c10_failures_accumulate.2.2 2 10 [(0, false), (1, true)] 9 (by decide)⟩
